import Mathlib

/-
Verification of the amigactl tracing core (atrace engine + daemon trace module).

Shallow embedding of:
  - src/atrace/atrace.h   : shared structures and layout (struct atrace_event,
    struct atrace_anchor, struct atrace_ringbuf, register/frame encoding)
  - src/atrace/ringbuf.c  : ring allocation (MEMF_CLEAR zero initialisation)
  - src/atrace/stub_gen.c : the generated interposition stub (word templates,
    variable region emission, and the dynamic semantics of the emitted code)
  - src/atrace/main.c     : loader commands (do_disable global branch)
  - src/daemon/trace.c    : filter parsing and matching, the lock-to-path
    cache, event delivery decisions, and TRACE DISABLE.

Machine integers are modelled as Nat (unsigned 32-bit values never overflow in
the scenarios proved here; where signed interpretation matters an explicit
two-complement view is used).  C strings are modelled as List Char holding the
bytes up to the terminating NUL.
-/

namespace Amigactl

/- ================= Shared data model (src/atrace/atrace.h) ================ -/

/-- One ring entry, mirroring struct atrace_event (atrace.h lines 94-106).
The C struct is exactly 64 bytes; the fields here carry the same payload.
string_data holds the C-string view of the 24-byte inline buffer. -/
structure AEvent where
  valid : Nat
  lib_id : Nat
  lvo_offset : Int
  sequence : Nat
  caller_task : Nat
  args : List Nat
  retval : Nat
  arg_count : Nat
  string_data : List Char
  deriving DecidableEq

/-- A freshly allocated ring entry. ringbuf_alloc (ringbuf.c lines 21-37)
allocates the header and all entries with MEMF_CLEAR, so every field of every
entry starts zero. -/
def zero_event : AEvent :=
  { valid := 0, lib_id := 0, lvo_offset := 0, sequence := 0, caller_task := 0,
    args := [0, 0, 0, 0], retval := 0, arg_count := 0, string_data := [] }

/-- Patch descriptor fields consumed by the stub generator, mirroring
struct atrace_patch (atrace.h lines 125-139): lib_id, lvo_offset, arg_count,
arg_regs, string_args. -/
structure PatchDesc where
  lib_id : Nat
  lvo_offset : Int
  arg_count : Nat
  arg_regs : Nat → Nat
  string_args : Nat

/-- reg_to_frame_offset (atrace.h lines 210-223): maps a register index to its
byte offset in the MOVEM frame d0-d7/a0-a4/a6; a5 is not in the frame and
yields the sentinel -1. -/
def reg_to_frame_offset (reg : Nat) : Int :=
  if reg ≤ 7 then (reg : Int) * 4
  else if 8 ≤ reg ∧ reg ≤ 12 then 32 + ((reg : Int) - 8) * 4
  else if reg = 14 then 52
  else -1

/- ======================= Anchor layout (claim C5) ======================== -/

/-- Field names and byte sizes of struct atrace_anchor exactly as declared in
atrace.h lines 47-60 (sizes from the layout comment at lines 26-46). -/
def atrace_anchor_fields : List (String × Nat) :=
  [("sem", 46), ("sem_padding", 2), ("magic", 4), ("version", 2),
   ("flags", 2), ("global_enable", 4), ("ring", 4), ("patch_count", 2),
   ("padding1", 2), ("patches", 4), ("event_sequence", 4),
   ("events_consumed", 4)]

/-- sizeof(struct atrace_anchor) as declared by the header: the sum of the
field sizes (the layout is packed to 2-byte multiples with explicit padding
fields, so the sum is the size). -/
def anchor_sizeof : Nat := (atrace_anchor_fields.map Prod.snd).sum

/-- ATRACE_VERSION, atrace.h line 16. The loader publishes this value in
anchor->version (main.c line 281). -/
def ATRACE_VERSION : Nat := 1

/-- The size that the compile-time assertion in atrace/main.c line 24
requires: typedef char assert_anchor_size[(sizeof(struct atrace_anchor) == 84) ? 1 : -1]. -/
def main_assert_anchor_size : Nat := 84

/-- The version gate the daemon applies before consulting the target-task
filter field (trace.c lines 1629, 1985, 2016, 2078): the field is consulted
only when anchor->version >= 2. -/
def daemon_filter_task_gate (version : Nat) : Bool := 2 ≤ version

/- ========== Stub entry fill semantics (stub_gen.c, pre/post call) ========= -/

/-- Bounded string capture:  the emitted copy loop (stub_gen.c lines 292-303)
copies at most 23 bytes of the NUL-terminated source into
entry->string_data and then stores a terminating zero byte.  We model the
captured C-string content: the first 23 characters of the source. -/
def str_capture (s : List Char) : List Char := s.take 23

/-- The pre-call portion of the generated stub that fills the reserved entry
(stub_gen.c: prefix bytes 126-167 write sequence, lib_id, lvo_offset and
caller_task; the variable region, built at lines 260-312, writes the captured
argument values, arg_count, the optional string capture, and finally stores
valid = 1).  frame gives the saved register values by MOVEM frame offset;
strSrc is the memory pointed to by the string argument (none = NULL pointer,
in which case the emitted NUL check skips the copy and only the terminating
zero byte is stored, leaving an empty C string).  Note that retval (entry
offset 28) is not among the fields written. -/
def stub_fill (e : AEvent) (p : PatchDesc) (seq task : Nat)
    (frame : Int → Nat) (strSrc : Option (List Char)) : AEvent :=
  let m := min p.arg_count 4
  { e with
    sequence := seq,
    lib_id := p.lib_id,
    lvo_offset := p.lvo_offset,
    caller_task := task,
    args := (List.range m).foldl
      (fun a i => a.set i (frame (reg_to_frame_offset (p.arg_regs i)))) e.args,
    arg_count := m,
    string_data :=
      if p.string_args ≠ 0 then
        match strSrc with
        | none => []
        | some s => str_capture s
      else e.string_data,
    valid := 1 }

/-- The post-call handler (stub_gen.c suffix bytes 24-52): writes the return
value into the entry (suffix byte 30), re-writes valid = 1 (suffix byte 34).
The use-count decrement (suffix byte 44) acts on the patch descriptor, not on
the entry, and is modelled in the state machine below. -/
def stub_postcall (e : AEvent) (r : Nat) : AEvent :=
  { e with retval := r, valid := 1 }

/- ============== Shared engine state (anchor + ring + patches) ============= -/

/-- The mutable shared state read and written by the generated stubs:
per-patch enabled flags and in-flight counters (struct atrace_patch), the
global enable flag, the target-task filter and the global sequence counter
(struct atrace_anchor), and the ring header plus per-slot valid flags
(struct atrace_ringbuf / struct atrace_event).  filter_task = 0 models a NULL
pointer.  valid i is the valid byte of entry i. -/
structure StubS where
  patch_count : Nat
  enabled : Nat → Nat
  global_enable : Nat
  filter_task : Nat
  cap : Nat
  wp : Nat
  rp : Nat
  overflow : Nat
  valid : Nat → Bool
  use_count : Nat → Nat
  event_sequence : Nat

/-- Engine state right after a fresh install (do_install, main.c lines
206-379, with ringbuf_alloc MEMF_CLEAR): all patches enabled, tracing
globally enabled, no target-task filter, empty ring, zero counters. -/
def init_stub (cap n : Nat) : StubS :=
  { patch_count := n, enabled := fun _ => 1, global_enable := 1,
    filter_task := 0, cap := cap, wp := 0, rp := 0, overflow := 0,
    valid := fun _ => false, use_count := fun _ => 0, event_sequence := 0 }

/-- The next write position computed by the stub prefix (stub_gen.c bytes
76-86): d1 := write_pos + 1; the unsigned compare against capacity with
bcs .nowrap resets d1 to 0 when d1 is not below capacity. -/
def stub_next (s : StubS) : Nat := if s.wp + 1 < s.cap then s.wp + 1 else 0

/-- The ring-slot reservation executed by the stub prefix under
Disable/Enable (stub_gen.c bytes 60-124) together with the entry fill up to
and including the valid = 1 store of the variable region.  On collision
(next = read_pos, byte 92) control branches to .overflow (suffix bytes
64-84): the overflow counter is incremented and no event is produced.  On
success: next is stored as the new write_pos (byte 96), the patch in-flight
use_count is incremented (byte 106), the assigned sequence number is the
prior value of anchor->event_sequence which is then incremented (bytes
110-116), and the reserved slot is the old write_pos (d2 = d0, byte 118;
entry address = entries + slot * 64, bytes 126-134).  The valid flag of the
reserved slot becomes 1 before the original function is called.  Returns
(some (slot, sequence)) on success, none on overflow. -/
def stub_reserve (s : StubS) (pidx : Nat) : Option (Nat × Nat) × StubS :=
  let next := stub_next s
  if next = s.rp then
    (none, { s with overflow := s.overflow + 1 })
  else
    (some (s.wp, s.event_sequence),
     { s with
        wp := next,
        use_count := fun i => if i = pidx then s.use_count i + 1 else s.use_count i,
        event_sequence := s.event_sequence + 1,
        valid := fun i => if i = s.wp then true else s.valid i })

theorem stub_reserve_collision {s : StubS} {p : Nat}
    (h : stub_next s = s.rp) :
    stub_reserve s p = (none, { s with overflow := s.overflow + 1 }) := by
  simp [stub_reserve, h]

theorem stub_reserve_success {s : StubS} {p : Nat}
    (h : stub_next s ≠ s.rp) :
    stub_reserve s p =
      (some (s.wp, s.event_sequence),
       { s with
          wp := stub_next s,
          use_count := fun i => if i = p then s.use_count i + 1 else s.use_count i,
          event_sequence := s.event_sequence + 1,
          valid := fun i => if i = s.wp then true else s.valid i }) := by
  simp [stub_reserve, h]

/-- One iteration of the daemon consumer loop (trace_poll_events, trace.c
lines 1430-1472): if the entry at read_pos has its valid byte set, the event
is formatted and broadcast, the valid byte is cleared, and read_pos advances
to (read_pos + 1) mod capacity; otherwise nothing happens. -/
def consume_step (s : StubS) : StubS :=
  if s.valid s.rp then
    { s with valid := fun i => if i = s.rp then false else s.valid i,
             rp := (s.rp + 1) % s.cap }
  else s

/-- An interleaving of producer reservations (from arbitrary tasks, each
atomic under Disable/Enable) and consumer iterations. -/
inductive AStep where
  | reserve (pidx : Nat)
  | consume

/-- Run a sequence of steps against the shared state. -/
def run_steps : List AStep → StubS → StubS
  | [], s => s
  | (AStep.reserve p) :: t, s => run_steps t (stub_reserve s p).2
  | AStep.consume :: t, s => run_steps t (consume_step s)

/-- The sequence numbers assigned to successful reservations, in execution
order. -/
def seqs_of : List AStep → StubS → List Nat
  | [], _ => []
  | (AStep.reserve p) :: t, s =>
      match stub_reserve s p with
      | (some sq, s1) => sq.2 :: seqs_of t s1
      | (none, s1) => seqs_of t s1
  | AStep.consume :: t, s => seqs_of t (consume_step s)

/- ================ Stub fast-path checks (claim C4) ======================= -/

/-- The fast-path checks at the top of the stub prefix, in emission order
(stub_gen.c bytes 8-14: per-patch enabled; bytes 22-28: global enable; bytes
30-54: target-task filter, consulted only when non-NULL, branching to
.disabled when it differs from SysBase->ThisTask).  Returns true when the
.disabled tail (suffix bytes 54-62: restore a5, tail-call the original) is
taken. -/
def stub_check (s : StubS) (pidx cur : Nat) : Bool :=
  if s.enabled pidx = 0 then true
  else if s.global_enable = 0 then true
  else if s.filter_task = 0 then false
  else if s.filter_task ≠ cur then true
  else false

/-- Which fast-path check fires first, in the emitted order: 0 = per-patch
enabled, 1 = global enable, 2 = target-task filter; none = all pass. -/
def first_failed_check (s : StubS) (pidx cur : Nat) : Option Nat :=
  if s.enabled pidx = 0 then some 0
  else if s.global_enable = 0 then some 1
  else if s.filter_task ≠ 0 ∧ s.filter_task ≠ cur then some 2
  else none

/-- Complete dynamic behaviour of one stub invocation, with the original
function modelled as an oracle acting on an abstract outside world W and
returning the D0 result.  Fast path (stub_check true): tail-call the original
with the caller registers restored, touching none of the shared state.
Overflow: increment overflow, restore registers, tail-call the original.
Success: reserve and fill, call the original through the trampoline, then run
the post-call handler which decrements the patch use_count (suffix byte 44)
before returning to the real caller. -/
def stub_run {W : Type} (orig : W → W × Nat) (s : StubS) (pidx cur : Nat)
    (w : W) : StubS × W × Nat :=
  if stub_check s pidx cur then
    (s, orig w)
  else
    match stub_reserve s pidx with
    | (none, s1) => (s1, orig w)
    | (some _, s1) =>
        let r := orig w
        ({ s1 with use_count :=
            fun i => if i = pidx then s1.use_count i - 1 else s1.use_count i },
         r)

/- =============== Ring occupancy invariant (claim C10) ==================== -/

/-- Cyclic distance from slot a to slot b in a ring of the given capacity
(the number of slots from a up to but excluding b, walking forward). -/
def dist (cap a b : Nat) : Nat := if a ≤ b then b - a else cap + b - a

/-- Number of ring slots whose valid byte is set. -/
def count_valid (s : StubS) : Nat := (List.range s.cap).countP (fun i => s.valid i)

/-- Ring well-formedness: positions in range, the valid slots are exactly the
cyclic interval from read_pos (inclusive) to write_pos (exclusive), and the
number of valid slots is the cyclic distance between them. -/
def RingInv (s : StubS) : Prop :=
  s.wp < s.cap ∧ s.rp < s.cap ∧
  (∀ i, s.valid i = true ↔ (i < s.cap ∧ dist s.cap s.rp i < dist s.cap s.rp s.wp)) ∧
  count_valid s = dist s.cap s.rp s.wp

theorem dist_lt_cap {cap a b : Nat} (ha : a < cap) (hb : b < cap) :
    dist cap a b < cap := by
  simp only [dist]; split <;> omega

theorem dist_eq_zero_iff {cap a b : Nat} (ha : a < cap) (_hb : b < cap) :
    dist cap a b = 0 ↔ a = b := by
  simp only [dist]; split <;> omega

theorem dist_inj {cap rp i j : Nat} (hr : rp < cap) (hi : i < cap)
    (hj : j < cap) (h : dist cap rp i = dist cap rp j) : i = j := by
  simp only [dist] at h; split at h <;> split at h <;> omega

theorem dist_next {cap rp wp : Nat} (hr : rp < cap) (hw : wp < cap)
    (hne : (if wp + 1 < cap then wp + 1 else 0) ≠ rp) :
    dist cap rp (if wp + 1 < cap then wp + 1 else 0) = dist cap rp wp + 1 := by
  simp only [dist] at *
  rcases Nat.lt_or_ge (wp + 1) cap with h | h
  · simp only [if_pos h] at hne ⊢
    split_ifs <;> omega
  · have hcap : wp + 1 = cap := by omega
    simp only [if_neg (by omega : ¬ wp + 1 < cap)] at hne ⊢
    split_ifs <;> omega

theorem mod_succ_lt {cap rp : Nat} (hr : rp < cap) :
    (rp + 1) % cap = if rp + 1 = cap then 0 else rp + 1 := by
  split
  · rename_i h
    rw [h, Nat.mod_self]
  · exact Nat.mod_eq_of_lt (by omega)

theorem dist_succ_rp_wp {cap rp wp : Nat} (hr : rp < cap) (hw : wp < cap)
    (hne : rp ≠ wp) :
    dist cap ((rp + 1) % cap) wp = dist cap rp wp - 1 := by
  rw [mod_succ_lt hr]
  simp only [dist]
  split_ifs <;> omega

theorem dist_succ_rp_other {cap rp i : Nat} (hr : rp < cap) (hi : i < cap)
    (hne : i ≠ rp) :
    dist cap ((rp + 1) % cap) i = dist cap rp i - 1 ∧ 1 ≤ dist cap rp i := by
  rw [mod_succ_lt hr]
  simp only [dist]
  split_ifs <;> omega

theorem dist_succ_rp_self {cap rp : Nat} (hr : rp < cap) :
    dist cap ((rp + 1) % cap) rp = cap - 1 := by
  rw [mod_succ_lt hr]
  simp only [dist]
  split_ifs <;> omega

theorem countP_update_true {n j : Nat} {f : Nat → Bool} (hj : j < n)
    (hf : f j = false) :
    (List.range n).countP (fun i => if i = j then true else f i) =
      (List.range n).countP (fun i => f i) + 1 := by
  induction n with
  | zero => omega
  | succ n ih =>
    rw [List.range_succ, List.countP_append, List.countP_append]
    rcases Nat.lt_or_ge j n with hlt | hge
    · rw [ih hlt]
      have : (List.countP (fun i => if i = j then true else f i) [n]) =
          List.countP (fun i => f i) [n] := by
        simp only [List.countP_cons, List.countP_nil]
        have : n ≠ j := by omega
        simp [this]
      omega
    · have hjn : j = n := by omega
      subst hjn
      have h1 : (List.range j).countP (fun i => if i = j then true else f i) =
          (List.range j).countP (fun i => f i) := by
        apply List.countP_congr
        intro a ha
        have : a < j := List.mem_range.mp ha
        have : a ≠ j := by omega
        simp [this]
      simp only [List.countP_cons, List.countP_nil, h1]
      simp [hf]

theorem countP_update_false {n j : Nat} {f : Nat → Bool} (hj : j < n)
    (hf : f j = true) :
    (List.range n).countP (fun i => if i = j then false else f i) =
      (List.range n).countP (fun i => f i) - 1 := by
  induction n with
  | zero => omega
  | succ n ih =>
    rw [List.range_succ, List.countP_append, List.countP_append]
    rcases Nat.lt_or_ge j n with hlt | hge
    · rw [ih hlt]
      have hc : (List.countP (fun i => if i = j then false else f i) [n]) =
          List.countP (fun i => f i) [n] := by
        simp only [List.countP_cons, List.countP_nil]
        have : n ≠ j := by omega
        simp [this]
      have hcount : 1 ≤ (List.range n).countP (fun i => f i) := by
        exact List.countP_pos_iff.mpr ⟨j, List.mem_range.mpr hlt, by simp [hf]⟩
      omega
    · have hjn : j = n := by omega
      subst hjn
      have h1 : (List.range j).countP (fun i => if i = j then false else f i) =
          (List.range j).countP (fun i => f i) := by
        apply List.countP_congr
        intro a ha
        have : a < j := List.mem_range.mp ha
        have : a ≠ j := by omega
        simp [this]
      simp only [List.countP_cons, List.countP_nil, h1]
      simp [hf]

theorem ring_inv_reserve {s : StubS} (hs : RingInv s) (p : Nat) :
    RingInv (stub_reserve s p).2 := by
  obtain ⟨hw, hr, hchar, hcount⟩ := hs
  by_cases hcol : stub_next s = s.rp
  · rw [stub_reserve_collision hcol]
    exact ⟨hw, hr, hchar, hcount⟩
  · rw [stub_reserve_success hcol]
    have hcap : 0 < s.cap := by omega
    have hnextlt : stub_next s < s.cap := by
      simp only [stub_next]; split <;> omega
    have hd : dist s.cap s.rp (stub_next s) = dist s.cap s.rp s.wp + 1 :=
      dist_next hr hw hcol
    have hwfalse : s.valid s.wp = false := by
      rcases h : s.valid s.wp with _ | _
      · rfl
      · have := (hchar s.wp).mp h
        omega
    refine ⟨hnextlt, hr, ?_, ?_⟩
    · intro i
      simp only []
      by_cases hiw : i = s.wp
      · subst hiw
        simp only [if_pos rfl, hd]
        constructor
        · intro _; exact ⟨hw, by omega⟩
        · intro _; rfl
      · simp only [if_neg hiw]
        rw [hchar i, hd]
        constructor
        · rintro ⟨hi, hlt⟩; exact ⟨hi, by omega⟩
        · rintro ⟨hi, hlt⟩
          refine ⟨hi, ?_⟩
          rcases Nat.lt_or_ge (dist s.cap s.rp i) (dist s.cap s.rp s.wp) with h1 | h1
          · exact h1
          · have heq : dist s.cap s.rp i = dist s.cap s.rp s.wp := by omega
            exact absurd (dist_inj hr hi hw heq) hiw
    · show (List.range s.cap).countP _ = _
      rw [hd]
      have hupd := @countP_update_true s.cap s.wp (fun i => s.valid i) hw hwfalse
      unfold count_valid at hcount
      simp only [hupd, hcount]

theorem ring_inv_consume {s : StubS} (hs : RingInv s) :
    RingInv (consume_step s) := by
  obtain ⟨hw, hr, hchar, hcount⟩ := hs
  unfold consume_step
  split
  case isFalse => exact ⟨hw, hr, hchar, hcount⟩
  case isTrue hv =>
    have hmem := (hchar s.rp).mp hv
    have hdpos : 0 < dist s.cap s.rp s.wp := by
      have := hmem.2
      omega
    have hrw : s.rp ≠ s.wp := by
      intro h
      rw [h] at hdpos
      simp [dist] at hdpos
    have hrp1 : (s.rp + 1) % s.cap < s.cap := Nat.mod_lt _ (by omega)
    have hdwp : dist s.cap ((s.rp + 1) % s.cap) s.wp = dist s.cap s.rp s.wp - 1 :=
      dist_succ_rp_wp hr hw hrw
    refine ⟨hw, hrp1, ?_, ?_⟩
    · intro i
      show (if i = s.rp then false else s.valid i) = true ↔ _
      by_cases hirp : i = s.rp
      · subst hirp
        simp only [if_pos rfl, hdwp]
        constructor
        · intro h; exact absurd h (by simp)
        · rintro ⟨hi, hlt⟩
          have hself := @dist_succ_rp_self s.cap s.rp hr
          have hlt2 := dist_lt_cap hr hw
          omega
      · simp only [if_neg hirp]
        rw [hchar i]
        show _ ↔ (i < s.cap ∧ dist s.cap ((s.rp + 1) % s.cap) i < _)
        rw [hdwp]
        constructor
        · rintro ⟨hi, hlt⟩
          obtain ⟨hstep, hge⟩ := dist_succ_rp_other hr hi hirp
          refine ⟨hi, ?_⟩
          have hne0 : dist s.cap s.rp i ≠ dist s.cap s.rp s.rp := by
            intro h
            exact hirp (dist_inj hr hi hr h)
          simp [dist] at hne0
          omega
        · rintro ⟨hi, hlt⟩
          obtain ⟨hstep, hge⟩ := dist_succ_rp_other hr hi hirp
          exact ⟨hi, by omega⟩
    · show (List.range s.cap).countP _ = _
      rw [hdwp]
      have hupd := @countP_update_false s.cap s.rp (fun i => s.valid i) hr hv
      unfold count_valid at hcount
      simp only [hupd, hcount]

theorem ring_inv_init {cap n : Nat} (h : 1 ≤ cap) : RingInv (init_stub cap n) := by
  refine ⟨h, h, ?_, ?_⟩
  · intro i
    simp [init_stub, dist]
  · simp [count_valid, init_stub, List.countP_eq_zero, dist]

theorem ring_inv_run {steps : List AStep} {s : StubS} (hs : RingInv s) :
    RingInv (run_steps steps s) := by
  induction steps generalizing s with
  | nil => exact hs
  | cons a t ih =>
    cases a with
    | reserve p => exact ih (ring_inv_reserve hs p)
    | consume => exact ih (ring_inv_consume hs)

/- ============ Sequence-number monotonicity (claims C2, C7) =============== -/

theorem event_sequence_mono_reserve (s : StubS) (p : Nat) :
    s.event_sequence ≤ ((stub_reserve s p).2).event_sequence := by
  by_cases h : stub_next s = s.rp
  · rw [stub_reserve_collision h]
  · rw [stub_reserve_success h]
    simp

theorem event_sequence_mono_consume (s : StubS) :
    s.event_sequence ≤ (consume_step s).event_sequence := by
  unfold consume_step
  split <;> simp

theorem seqs_of_ge (steps : List AStep) (s : StubS) :
    ∀ q ∈ seqs_of steps s, s.event_sequence ≤ q := by
  induction steps generalizing s with
  | nil => intro q hq; simp [seqs_of] at hq
  | cons a t ih =>
    intro q hq
    cases a with
    | reserve p =>
      by_cases hcol : stub_next s = s.rp
      · simp only [seqs_of, stub_reserve_collision hcol] at hq
        have := ih _ q hq
        simpa using this
      · simp only [seqs_of, stub_reserve_success hcol, List.mem_cons] at hq
        rcases hq with hq | hq
        · omega
        · have := ih _ q hq
          simp only [] at this
          omega
    | consume =>
      simp only [seqs_of] at hq
      have h1 := event_sequence_mono_consume s
      have := ih _ q hq
      omega

theorem seqs_of_chain (steps : List AStep) (s : StubS) :
    List.Chain' (· < ·) (seqs_of steps s) := by
  induction steps generalizing s with
  | nil => simp [seqs_of]
  | cons a t ih =>
    cases a with
    | reserve p =>
      by_cases hcol : stub_next s = s.rp
      · simp only [seqs_of, stub_reserve_collision hcol]
        exact ih _
      · simp only [seqs_of, stub_reserve_success hcol]
        rw [List.chain'_cons']
        refine ⟨?_, ih _⟩
        intro y hy
        have hmem : y ∈ seqs_of t _ := List.mem_of_mem_head? hy
        have := seqs_of_ge t _ y hmem
        simp only [] at this
        omega
    | consume =>
      simp only [seqs_of]
      exact ih _

/- =============== Global DISABLE paths (claim C6) ========================= -/

/-- The loader global-disable path, do_disable with no function arguments
(atrace/main.c lines 494-517): set global_enable = 0 under Disable/Enable,
then poll the per-patch use_count values for up to 50 x 20 ms.  The poll loop
only reads state; with no concurrently running stubs the state does not
change, so it is modelled as the final drained check.  The returned Bool is
the all_drained flag (a warning is printed when it is false).  Note: the ring
header (write_pos, read_pos, overflow) is not touched. -/
def do_disable_global (s : StubS) : StubS × Bool :=
  ({ s with global_enable := 0 },
   (List.range s.patch_count).all (fun i => s.use_count i == 0))

/-- The valid-flag clearing loop of the daemon global TRACE DISABLE
(trace.c lines 2430-2437): pos walks from read_pos to write_pos mod
capacity, clearing each valid byte.  Modelled with the iteration count
(the cyclic distance from read_pos to write_pos) made explicit. -/
def clear_valid_n : (Nat → Bool) → Nat → Nat → Nat → (Nat → Bool)
  | v, _, 0, _ => v
  | v, pos, n + 1, cap =>
      clear_valid_n (fun i => if i = pos then false else v i) ((pos + 1) % cap) n cap

/-- The daemon global TRACE DISABLE path (trace_cmd_disable, trace.c lines
2405-2450): set global_enable = 0 under Disable/Enable (use_counts are
deliberately NOT drained there, per the comment at lines 2410-2411); clear
the valid flags of the occupied slots; advance read_pos to write_pos; if the
overflow counter is positive, accumulate it into the daemon-side dropped
total and reset it to zero.  Returns the new state and the new dropped
total. -/
def trace_cmd_disable_global (s : StubS) (dropped : Nat) : StubS × Nat :=
  let s1 : StubS := { s with global_enable := 0 }
  let v1 := clear_valid_n s1.valid s1.rp (dist s1.cap s1.rp s1.wp) s1.cap
  if 0 < s1.overflow then
    ({ s1 with valid := v1, rp := s1.wp, overflow := 0 }, dropped + s1.overflow)
  else
    ({ s1 with valid := v1, rp := s1.wp }, dropped)

/- ================= Daemon string utilities (trace.c) ===================== -/

/-- The tab character (written via its code point to keep the source plain). -/
def tabc : Char := Char.ofNat 9

/-- The double-quote character. -/
def dquote : Char := Char.ofNat 34

/-- ASCII-only tolower, exactly as in stristr (trace.c lines 520-522). -/
def lower_c (c : Char) : Char :=
  if 'A' ≤ c ∧ c ≤ 'Z' then Char.ofNat (c.toNat + 32) else c

/-- Case-insensitive string equality (the stricmp calls in trace.c). -/
def eq_ci (a b : List Char) : Bool := a.map lower_c == b.map lower_c

/-- Case-insensitive prefix test: the inner while loop of stristr (trace.c
lines 517-529); also models strnicmp(args, kw, strlen(kw)) == 0 since that
comparison stops at the NUL of args on mismatch. -/
def begins_ci : List Char → List Char → Bool
  | _, [] => true
  | [], _ :: _ => false
  | h :: ht, n :: nt => (lower_c h == lower_c n) && begins_ci ht nt

/-- Case-insensitive substring search, mirroring stristr (trace.c lines
503-532): an empty needle matches everything; otherwise some suffix of the
haystack must start with the needle. -/
def contains_ci : List Char → List Char → Bool
  | _, [] => true
  | [], _ :: _ => false
  | h :: ht, n :: nt => begins_ci (h :: ht) (n :: nt) || contains_ci ht (n :: nt)

/-- Strip the "[N] " CLI-number prefix from a task name before PROC matching
(trace_filter_match, trace.c lines 663-669): if the name starts with a left
bracket, find the first right bracket; if it is followed by a space, matching
starts after that space; otherwise the name is used as is. -/
def drop_to_rbrack : List Char → Option (List Char)
  | [] => none
  | c :: t => if c = ']' then some t else drop_to_rbrack t

def strip_cli (nm : List Char) : List Char :=
  match nm with
  | '[' :: _ =>
      match drop_to_rbrack nm with
      | some (' ' :: rest) => rest
      | _ => nm
  | _ => nm

/- ============== Function table (trace.c lines 65-98) ===================== -/

def ERR_CHECK_NULL : Nat := 0
def ERR_CHECK_NZERO : Nat := 1
def ERR_CHECK_VOID : Nat := 2
def ERR_CHECK_ANY : Nat := 3
def ERR_CHECK_NONE : Nat := 4
def ERR_CHECK_RC : Nat := 5
def ERR_CHECK_NEGATIVE : Nat := 6

def RET_PTR : Nat := 0
def RET_BOOL_DOS : Nat := 1
def RET_NZERO_ERR : Nat := 2
def RET_VOID : Nat := 3
def RET_MSG_PTR : Nat := 4
def RET_RC : Nat := 5
def RET_LOCK : Nat := 6
def RET_LEN : Nat := 7
def RET_OLD_LOCK : Nat := 8

/-- Library ids: LIB_EXEC = 0 (atrace.h line 21); LIB_DOS = 1 (the dos entry
of atrace_libs, funcs.c line 210). -/
def LIB_EXEC : Nat := 0
def LIB_DOS : Nat := 1

/-- One row of the daemon func_table (struct trace_func_entry, trace.c
lines 55-63). -/
structure TraceFuncEntry where
  lib_name : String
  func_name : String
  lib_id : Nat
  lvo_offset : Int
  error_check : Nat
  has_string : Bool
  result_type : Nat
  deriving DecidableEq

/-- The static func_table (trace.c lines 65-98), transcribed row by row. -/
def func_table : List TraceFuncEntry :=
  [⟨"exec", "FindPort",         LIB_EXEC, -390, ERR_CHECK_NULL,  true,  RET_PTR⟩,
   ⟨"exec", "FindResident",     LIB_EXEC,  -96, ERR_CHECK_NULL,  true,  RET_PTR⟩,
   ⟨"exec", "FindSemaphore",    LIB_EXEC, -594, ERR_CHECK_NULL,  true,  RET_PTR⟩,
   ⟨"exec", "FindTask",         LIB_EXEC, -294, ERR_CHECK_NULL,  true,  RET_PTR⟩,
   ⟨"exec", "OpenDevice",       LIB_EXEC, -444, ERR_CHECK_NZERO, true,  RET_NZERO_ERR⟩,
   ⟨"exec", "OpenLibrary",      LIB_EXEC, -552, ERR_CHECK_NULL,  true,  RET_PTR⟩,
   ⟨"exec", "OpenResource",     LIB_EXEC, -498, ERR_CHECK_NULL,  true,  RET_PTR⟩,
   ⟨"exec", "GetMsg",           LIB_EXEC, -372, ERR_CHECK_NONE,  false, RET_MSG_PTR⟩,
   ⟨"exec", "PutMsg",           LIB_EXEC, -366, ERR_CHECK_VOID,  false, RET_VOID⟩,
   ⟨"exec", "ObtainSemaphore",  LIB_EXEC, -564, ERR_CHECK_VOID,  false, RET_VOID⟩,
   ⟨"exec", "ReleaseSemaphore", LIB_EXEC, -570, ERR_CHECK_VOID,  false, RET_VOID⟩,
   ⟨"exec", "AllocMem",         LIB_EXEC, -198, ERR_CHECK_NULL,  false, RET_PTR⟩,
   ⟨"dos", "Open",              LIB_DOS,   -30, ERR_CHECK_NULL,  true,  RET_PTR⟩,
   ⟨"dos", "Close",             LIB_DOS,   -36, ERR_CHECK_NULL,  false, RET_BOOL_DOS⟩,
   ⟨"dos", "Lock",              LIB_DOS,   -84, ERR_CHECK_NULL,  true,  RET_LOCK⟩,
   ⟨"dos", "DeleteFile",        LIB_DOS,   -72, ERR_CHECK_NULL,  true,  RET_BOOL_DOS⟩,
   ⟨"dos", "Execute",           LIB_DOS,  -222, ERR_CHECK_NULL,  true,  RET_BOOL_DOS⟩,
   ⟨"dos", "GetVar",            LIB_DOS,  -906, ERR_CHECK_NEGATIVE, true, RET_LEN⟩,
   ⟨"dos", "FindVar",           LIB_DOS,  -918, ERR_CHECK_NULL,  true,  RET_PTR⟩,
   ⟨"dos", "LoadSeg",           LIB_DOS,  -150, ERR_CHECK_NULL,  true,  RET_PTR⟩,
   ⟨"dos", "NewLoadSeg",        LIB_DOS,  -768, ERR_CHECK_NULL,  true,  RET_PTR⟩,
   ⟨"dos", "CreateDir",         LIB_DOS,  -120, ERR_CHECK_NULL,  true,  RET_LOCK⟩,
   ⟨"dos", "MakeLink",          LIB_DOS,  -444, ERR_CHECK_NULL,  true,  RET_BOOL_DOS⟩,
   ⟨"dos", "Rename",            LIB_DOS,   -78, ERR_CHECK_NULL,  true,  RET_BOOL_DOS⟩,
   ⟨"dos", "RunCommand",        LIB_DOS,  -504, ERR_CHECK_RC,    false, RET_RC⟩,
   ⟨"dos", "SetVar",            LIB_DOS,  -900, ERR_CHECK_NULL,  true,  RET_BOOL_DOS⟩,
   ⟨"dos", "DeleteVar",         LIB_DOS,  -912, ERR_CHECK_NULL,  true,  RET_BOOL_DOS⟩,
   ⟨"dos", "SystemTagList",     LIB_DOS,  -606, ERR_CHECK_RC,    true,  RET_RC⟩,
   ⟨"dos", "AddDosEntry",       LIB_DOS,  -678, ERR_CHECK_NULL,  false, RET_BOOL_DOS⟩,
   ⟨"dos", "CurrentDir",        LIB_DOS,  -126, ERR_CHECK_VOID,  false, RET_OLD_LOCK⟩]

/-- lookup_func (trace.c lines 334-342): first func_table row whose lib_id
and lvo_offset both match. -/
def lookup_func (lib : Nat) (lvo : Int) : Option TraceFuncEntry :=
  func_table.find? (fun fe => fe.lib_id == lib && fe.lvo_offset == lvo)

/- =========== Per-client trace state and filter parsing =================== -/

/-- Per-client trace state, mirroring struct trace_state (daemon.h lines
65-88); only the fields the verified claims touch. mode_run corresponds to
mode == TRACE_MODE_RUN. -/
structure ClientTS where
  active : Bool
  mode_run : Bool
  filter_lib_id : Int
  filter_lvo : Int
  filter_errors_only : Bool
  filter_procname : List Char
  run_task_ptr : Nat
  run_start_seq : Nat
  deriving DecidableEq

/-- Drop leading spaces and tabs (the whitespace skips in parse_filters). -/
def skip_ws : List Char → List Char
  | [] => []
  | c :: t => if c = ' ' ∨ c = tabc then skip_ws t else c :: t

/-- Token extraction with a capacity bound, mirroring the copy loops in
parse_filters: consume characters until whitespace, end of input, or the
buffer bound; characters beyond the bound stay in the remainder. -/
def take_tok : Nat → List Char → List Char × List Char
  | 0, l => ([], l)
  | _ + 1, [] => ([], [])
  | n + 1, c :: t =>
      if c = ' ' ∨ c = tabc then ([], c :: t)
      else
        let (tk, r) := take_tok n t
        (c :: tk, r)

/-- Skip an unrecognised token (parse_filters, trace.c lines 636-638). -/
def skip_tok : List Char → List Char
  | [] => []
  | c :: t => if c = ' ' ∨ c = tabc then c :: t else skip_tok t

/-- Strip a known library suffix from a LIB= argument (parse_filters, trace.c
lines 564-578): the first of ".library", ".device", ".resource" that is a
case-insensitive proper suffix is removed. -/
def strip_lib_suffix (tok : List Char) : List Char :=
  let ends := fun (sfx : List Char) =>
    decide (sfx.length < tok.length) && eq_ci (tok.drop (tok.length - sfx.length)) sfx
  if ends ".library".data then tok.take (tok.length - 8)
  else if ends ".device".data then tok.take (tok.length - 7)
  else if ends ".resource".data then tok.take (tok.length - 9)
  else tok

/-- Resolve a LIB= name (parse_filters, trace.c lines 580-596): first
func_table row with a case-insensitively equal lib_name gives the id;
unknown names give the sentinel 255 which no installed patch uses. -/
def resolve_lib (tok : List Char) : Int :=
  match func_table.find? (fun fe => eq_ci tok fe.lib_name.data) with
  | some fe => fe.lib_id
  | none => 255

/-- The parse_filters loop body (trace.c lines 540-642), driven by fuel (each
iteration consumes at least one character, so fuel = input length suffices). -/
def parse_filters_go : Nat → List Char → ClientTS → ClientTS
  | 0, _, ts => ts
  | fuel + 1, args, ts =>
    let args := skip_ws args
    if args = [] then ts
    else if begins_ci args "LIB=".data then
      let (tok, rest) := take_tok 31 (args.drop 4)
      parse_filters_go fuel rest
        { ts with filter_lib_id := resolve_lib (strip_lib_suffix tok) }
    else if begins_ci args "FUNC=".data then
      let (tok, rest) := take_tok 31 (args.drop 5)
      match func_table.find? (fun fe => eq_ci tok fe.func_name.data) with
      | some fe =>
          parse_filters_go fuel rest
            { ts with filter_lvo := fe.lvo_offset, filter_lib_id := fe.lib_id }
      | none =>
          parse_filters_go fuel rest { ts with filter_lvo := 1 }
    else if begins_ci args "PROC=".data then
      let (tok, rest) := take_tok 63 (args.drop 5)
      parse_filters_go fuel rest { ts with filter_procname := tok }
    else if begins_ci args "ERRORS".data then
      parse_filters_go fuel (args.drop 6) { ts with filter_errors_only := true }
    else
      parse_filters_go fuel (skip_tok args) ts

/-- parse_filters (trace.c lines 540-642): reset the four filter fields to
the match-everything defaults, then scan the argument string. -/
def parse_filters (args : List Char) (c : ClientTS) : ClientTS :=
  parse_filters_go (args.length + 1) args
    { c with filter_lib_id := -1, filter_lvo := 0,
             filter_errors_only := false, filter_procname := [] }

/- ================== Filter matching (claim C8) =========================== -/

/-- Two-complement signed view of a 32-bit value ((LONG)retval). -/
def slong (x : Nat) : Int :=
  if x < 2 ^ 31 then (x : Int) else (x : Int) - 2 ^ 32

/-- The ERRORS switch body (trace_filter_match, trace.c lines 679-709):
returns true when the event is shown under the errors-only filter. -/
def errors_show (fe : TraceFuncEntry) (ev : AEvent) : Bool :=
  if fe.error_check = ERR_CHECK_VOID then false
  else if fe.error_check = ERR_CHECK_NULL then ev.retval == 0
  else if fe.error_check = ERR_CHECK_NZERO then !(ev.retval == 0)
  else if fe.error_check = ERR_CHECK_ANY then true
  else if fe.error_check = ERR_CHECK_NONE then false
  else if fe.error_check = ERR_CHECK_RC then !(ev.retval == 0)
  else if fe.error_check = ERR_CHECK_NEGATIVE then decide (slong ev.retval < 0)
  else true

/-- trace_filter_match (trace.c lines 647-715): sequential early-return
checks of the LIB, FUNC (by LVO), PROC and ERRORS filters. -/
def trace_filter_match (ts : ClientTS) (ev : AEvent) (task_name : List Char) : Bool :=
  if 0 ≤ ts.filter_lib_id ∧ (ev.lib_id : Int) ≠ ts.filter_lib_id then false
  else if ts.filter_lvo ≠ 0 ∧ ev.lvo_offset ≠ ts.filter_lvo then false
  else if ts.filter_procname ≠ [] ∧
          contains_ci (strip_cli task_name) ts.filter_procname = false then false
  else if ts.filter_errors_only then
    match lookup_func ev.lib_id ev.lvo_offset with
    | some fe => errors_show fe ev
    | none => true
  else true

/-- LIB filter predicate in isolation (all filters AND-combine). -/
def lib_pass (ts : ClientTS) (ev : AEvent) : Bool :=
  decide (ts.filter_lib_id < 0) || ((ev.lib_id : Int) == ts.filter_lib_id)

/-- FUNC filter predicate in isolation. -/
def lvo_pass (ts : ClientTS) (ev : AEvent) : Bool :=
  (ts.filter_lvo == 0) || (ev.lvo_offset == ts.filter_lvo)

/-- PROC filter predicate in isolation. -/
def proc_pass (ts : ClientTS) (nm : List Char) : Bool :=
  (ts.filter_procname == ([] : List Char)) ||
    contains_ci (strip_cli nm) ts.filter_procname

/-- ERRORS filter predicate in isolation. -/
def errors_pass (ts : ClientTS) (ev : AEvent) : Bool :=
  !ts.filter_errors_only ||
    (match lookup_func ev.lib_id ev.lvo_offset with
     | some fe => errors_show fe ev
     | none => true)

/- ================ Event delivery decisions (claim C7) ==================== -/

/-- The per-client delivery decision in the trace_poll_events broadcast loop
(trace.c lines 1442-1453): skip inactive clients; for TRACE RUN clients skip
events from any other task and events older than the session start sequence;
then apply the common filters. -/
def poll_delivers (c : ClientTS) (ev : AEvent) (nm : List Char) : Bool :=
  if !c.active then false
  else if c.mode_run && !(ev.caller_task == c.run_task_ptr) then false
  else if c.mode_run && decide (ev.sequence < c.run_start_seq) then false
  else trace_filter_match c ev nm

/-- The delivery decision for the TRACE RUN client in the final drain
(trace_check_run_completed, trace.c lines 2187-2193). -/
def drain_delivers (c : ClientTS) (ev : AEvent) (nm : List Char) : Bool :=
  (ev.caller_task == c.run_task_ptr) &&
  decide (c.run_start_seq ≤ ev.sequence) &&
  trace_filter_match c ev nm

/- ================ Lock-to-path cache (claim C9) ========================== -/

/-- LOCK_CACHE_SIZE (trace.c line 804). -/
def LOCK_CACHE_SIZE : Nat := 32

/-- The lock-to-path cache (trace.c lines 806-812): 32 slots of
(lock value, path) plus the FIFO write index. -/
structure LockCache where
  slots : List (Nat × List Char)
  nextIdx : Nat
  deriving DecidableEq

/-- lock_cache_clear (trace.c lines 840-844): memset the slots, reset the
write index. -/
def lock_cache_clear : LockCache :=
  { slots := List.replicate LOCK_CACHE_SIZE (0, []), nextIdx := 0 }

/-- lock_cache_add (trace.c lines 814-822): ignore a zero lock or an empty
path; otherwise overwrite the slot at the FIFO index with the pair (the path
truncated to 63 characters) and advance the index mod 32. -/
def lock_cache_add (c : LockCache) (lock_val : Nat) (path : List Char) : LockCache :=
  if lock_val = 0 ∨ path = [] then c
  else
    { slots := c.slots.set c.nextIdx (lock_val, path.take 63),
      nextIdx := (c.nextIdx + 1) % LOCK_CACHE_SIZE }

/-- lock_cache_lookup (trace.c lines 824-834): zero never matches; otherwise
the first slot (in index order) holding the lock value yields its path. -/
def lock_cache_lookup (c : LockCache) (lock_val : Nat) : Option (List Char) :=
  if lock_val = 0 then none
  else (c.slots.find? (fun e => e.1 == lock_val)).map Prod.snd

/-- The cache-population side effect of trace_format_event (trace.c lines
1309-1319): only when the function is known, the return value is non-zero,
the function captures a string and the captured string is non-empty, and the
function is dos.Lock (LVO -84) or dos.CreateDir (LVO -120), is the pair
(retval, string_data) added. -/
def format_event_cache_update (cache : LockCache) (ev : AEvent) : LockCache :=
  match lookup_func ev.lib_id ev.lvo_offset with
  | some fe =>
      if ev.retval ≠ 0 ∧ fe.has_string ∧ ev.string_data ≠ [] then
        if (fe.lib_id = LIB_DOS ∧ fe.lvo_offset = -84) ∨
           (fe.lib_id = LIB_DOS ∧ fe.lvo_offset = -120) then
          lock_cache_add cache ev.retval ev.string_data
        else cache
      else cache
  | none => cache

/-- Lowercase hex digit. -/
def hex_digit (d : Nat) : Char :=
  if d < 10 then Char.ofNat (48 + d) else Char.ofNat (87 + d)

/-- Hex rendering of a 32-bit value, least significant digit last (the %lx
conversions in format_args). -/
def hex_go : Nat → Nat → List Char
  | 0, _ => []
  | fuel + 1, n => if n = 0 then [] else hex_go fuel (n / 16) ++ [hex_digit (n % 16)]

def hex_lower (n : Nat) : List Char :=
  if n = 0 then ['0'] else hex_go 32 n

/-- Quoted-string rendering ("%s" surrounded by double quotes). -/
def quote_str (p : List Char) : List Char := dquote :: (p ++ [dquote])

/-- The dos.CurrentDir arm of format_args (trace.c lines 1121-1132): a NULL
lock renders as lock=NULL; a cached lock renders as the quoted path; an
unknown lock renders as lock=0x followed by the hex value. -/
def format_args_currentdir (cache : LockCache) (arg0 : Nat) : List Char :=
  if arg0 = 0 then "lock=NULL".data
  else
    match lock_cache_lookup cache arg0 with
    | some path => quote_str path
    | none => "lock=0x".data ++ hex_lower arg0

/-- The TRACE START command path (trace_cmd_start, trace.c lines 1676-1722)
reduced to the state the claims inspect: the guards that return an error
without starting a session (active TAIL session, active TRACE session,
engine not loaded, engine globally disabled) leave the client state and the
lock cache untouched; otherwise the filters are parsed, the lock-to-path
cache is cleared, and the session becomes active. -/
def trace_cmd_start_model (tail_active loaded : Bool) (global_enable : Nat)
    (args : List Char) (c : ClientTS) (cache : LockCache) :
    ClientTS × LockCache :=
  if tail_active then (c, cache)
  else if c.active then (c, cache)
  else if !loaded then (c, cache)
  else if global_enable = 0 then (c, cache)
  else ({ parse_filters args c with active := true }, lock_cache_clear)

/-- The TRACE RUN command path (trace_cmd_run, trace.c lines 1726-1864)
reduced to its effect on the lock cache: the guards that return an error
before line 1864 (active TAIL or TRACE session, engine not loaded or
disabled, async exec unavailable, missing separator or command, a PROC=
filter, a bad CD= directory) leave the cache untouched; once they pass, the
cache is cleared (line 1864) before the child process is created.  The Bool
records whether the clearing point was reached. -/
def trace_cmd_run_cache_model (tail_active c_active loaded : Bool)
    (global_enable : Nat) (async_ok sep_found cmd_nonempty : Bool)
    (has_proc_filter : Bool) (cd_ok : Bool) (cache : LockCache) :
    Bool × LockCache :=
  if tail_active then (false, cache)
  else if c_active then (false, cache)
  else if !loaded then (false, cache)
  else if global_enable = 0 then (false, cache)
  else if !async_ok then (false, cache)
  else if !sep_found then (false, cache)
  else if !cmd_nonempty then (false, cache)
  else if has_proc_filter then (false, cache)
  else if !cd_ok then (false, cache)
  else (true, lock_cache_clear)

/- ============ Stub code templates (stub_gen.c, claim C1) ================= -/

/-- The fixed 168-byte prefix template (stub_gen.c lines 37-93), 84 UWORD
values, placeholders 0x0000 included. -/
def stub_prefix_words : List Nat :=
  [0x2F0D,
   0x2A7C, 0x0000, 0x0000,
   0x4AAD, 0x0000,
   0x6700, 0x0000,
   0x2A7C, 0x0000, 0x0000,
   0x4AAD, 0x0000,
   0x6700, 0x0000,
   0x4AAD, 0x0000,
   0x6714,
   0x2F0E,
   0x2C78, 0x0004,
   0x2C6E, 0x0114,
   0xBDED, 0x0000,
   0x2C5F,
   0x6600, 0x0000,
   0x48E7, 0xFFFA,
   0x2C78, 0x0004,
   0x4EAE, 0xFF88,
   0x206D, 0x0000,
   0x2028, 0x0000,
   0x2200,
   0x5281,
   0xB2A8, 0x0000,
   0x6502,
   0x7200,
   0xB2A8, 0x0000,
   0x6700, 0x0000,
   0x2141, 0x0000,
   0x207C, 0x0000, 0x0000,
   0x52A8, 0x0000,
   0x222D, 0x0000,
   0x52AD, 0x0000,
   0x2400,
   0x2601,
   0x4EAE, 0xFF82,
   0xED82,
   0x2A7C, 0x0000, 0x0000,
   0xDBC2,
   0x2B43, 0x0004,
   0x207C, 0x0000, 0x0000,
   0x1B68, 0x0000, 0x0001,
   0x3B68, 0x0002, 0x0002,
   0x2C78, 0x0004,
   0x2B6E, 0x0114, 0x0008]

/-- The fixed 86-byte suffix template (stub_gen.c lines 113-149), 43 UWORD
values: MOVEM restore and trampoline (bytes 0-23), post-call handler (bytes
24-53), disabled fast path (bytes 54-63), overflow path (bytes 64-85). -/
def stub_suffix_words : List Nat :=
  [0x4CDF, 0x5FFF,
   0x2F17,
   0x2F4D, 0x0004,
   0x2A5F,
   0x487A, 0x000A,
   0x2F3C, 0x0000, 0x0000,
   0x4E75,
   0x2F00,
   0x206F, 0x0004,
   0x2140, 0x001C,
   0x10BC, 0x0001,
   0x207C, 0x0000, 0x0000,
   0x53A8, 0x0000,
   0x201F,
   0x588F,
   0x4E75,
   0x2A5F,
   0x2F3C, 0x0000, 0x0000,
   0x4E75,
   0x52A8, 0x0000,
   0x4EAE, 0xFF82,
   0x4CDF, 0x5FFF,
   0x2A5F,
   0x2F3C, 0x0000, 0x0000,
   0x4E75]

def STUB_PREFIX_BYTES : Nat := 168
def STUB_SUFFIX_BYTES : Nat := 86

/-- 16-bit truncated view of a frame offset, as the (UWORD)frame_ofs casts
when the generator pushes a WORD value into the UWORD template buffer. -/
def w16 (x : Int) : Nat := (x % 65536).toNat

/-- The first string argument index (stub_gen.c lines 283-289): the lowest
set bit of string_args among the declared arguments. -/
def first_string_arg (p : PatchDesc) : Nat :=
  match (List.range p.arg_count).find? (fun i => p.string_args.testBit i) with
  | some i => i
  | none => p.arg_count

/-- Entry byte offsets from struct atrace_event (atrace.h lines 79-106),
as produced by the offsetof patches in the generator. -/
def EV_OFS_VALID : Nat := 0
def EV_OFS_ARGS : Nat := 12
def EV_OFS_RETVAL : Nat := 28
def EV_OFS_ARG_COUNT : Nat := 32
def EV_OFS_STRING : Nat := 34

/-- The string-capture word group (stub_gen.c lines 292-303): load the saved
string pointer, point a1 at entry->string_data, NUL check, bounded 23-byte
copy, terminating clear. -/
def str_capture_words (p : PatchDesc) : List Nat :=
  [0x206F, w16 (reg_to_frame_offset (p.arg_regs (first_string_arg p))),
   0x43ED, EV_OFS_STRING,
   0x4A88,
   0x6708,
   0x7016,
   0x12D8,
   0x57C8, 0xFFFC,
   0x4211]

/-- The variable region as a list of emitted instruction word groups
(stub_gen.c lines 260-312, the pushes into var_buf in order): one argument
copy group per captured argument, the arg_count immediate, the optional
string capture, and last the valid = 1 store. -/
def var_instr_groups (p : PatchDesc) : List (List Nat) :=
  ((List.range (min p.arg_count 4)).map (fun i =>
      [0x2B6F, w16 (reg_to_frame_offset (p.arg_regs i)), EV_OFS_ARGS + i * 4]))
  ++ [[0x1B7C, min p.arg_count 4, EV_OFS_ARG_COUNT]]
  ++ (if p.string_args ≠ 0 then [str_capture_words p] else [])
  ++ [[0x1ABC, 0x0001]]

/-- The assembled variable region (the contents of var_buf). -/
def var_buf_words (p : PatchDesc) : List Nat := (var_instr_groups p).flatten

/-- The assembled stub before address back-patching (stub_gen.c lines
323-331): prefix, variable region, suffix.  Back-patching (lines 335-405)
only overwrites the 0x0000 placeholder and displacement slots and never
moves an instruction, so all instruction offsets are those of this list. -/
def assembled_stub (p : PatchDesc) : List Nat :=
  stub_prefix_words ++ var_buf_words p ++ stub_suffix_words

/-- Byte offset where the suffix starts (suffix_start in the generator). -/
def suffix_start (p : PatchDesc) : Nat :=
  STUB_PREFIX_BYTES + 2 * (var_buf_words p).length

/-- Byte offset of the valid = 1 store (the last two words of the variable
region). -/
def valid_store_ofs (p : PatchDesc) : Nat := suffix_start p - 4

/-- Byte offsets of the prefix writes into the reserved entry (stub_gen.c
bytes 136, 146, 152, 162): sequence, lib_id, lvo_offset, caller_task. -/
def seq_write_ofs : Nat := 136
def lib_id_write_ofs : Nat := 146
def lvo_write_ofs : Nat := 152
def caller_task_write_ofs : Nat := 162

/-- Byte offset of the argument-i copy instruction in the assembled stub. -/
def arg_write_ofs (i : Nat) : Nat := STUB_PREFIX_BYTES + 6 * i

/-- Byte offset of the arg_count immediate store. -/
def arg_count_write_ofs (p : PatchDesc) : Nat :=
  STUB_PREFIX_BYTES + 6 * (min p.arg_count 4)

/-- Byte offset of the string-capture block (when emitted). -/
def str_capture_ofs (p : PatchDesc) : Nat :=
  STUB_PREFIX_BYTES + 6 * (min p.arg_count 4) + 6

/-- Byte offset, within the assembled stub, of the first instruction of the
trampoline that tail-calls the original function (suffix bytes 12-23: push
the post-call continuation, push the original address, rts). -/
def tailcall_ofs (p : PatchDesc) : Nat := suffix_start p + 12

/-- Entry byte offsets written by one variable-region instruction group,
identified by its leading opcode word: 0x2B6F move.l frame(sp), d16(a5)
writes the entry field at its third word; 0x1B7C move.b #imm, d16(a5)
writes the field at its third word; 0x1ABC move.b #1, (a5) writes the valid
byte at offset 0; 0x206F opens the string-capture block, which writes only
entry->string_data. -/
def entry_dests (g : List Nat) : List Nat :=
  if g.head? = some 0x2B6F then [g.getD 2 0]
  else if g.head? = some 0x1B7C then [g.getD 2 0]
  else if g.head? = some 0x1ABC then [EV_OFS_VALID]
  else if g.head? = some 0x206F then [EV_OFS_STRING]
  else []

/-- Suffix-relative byte offsets of the post-call handler (stub_gen.c lines
123-133 and the suffix-relative constants at lines 155-169): the handler
runs from byte 24, writes entry->retval at byte 30, re-writes valid at byte
34, decrements the patch use_count at byte 44; the .disabled tail starts at
byte 54. -/
def postcall_ofs : Nat := 24
def retval_write_suffix_ofs : Nat := 30
def postcall_valid_ofs : Nat := 34
def postcall_usecount_ofs : Nat := 44
def disabled_path_ofs : Nat := 54

/- ========================== Claim theorems =============================== -/

/-- Claim C5: the shared control region is claimed to be 84 bytes in total at
version 2, with a volatile target-task pointer present at version >= 2 and a
published version at which that field is present and consulted.  The code
contradicts itself: the header (atrace.h) declares an 80-byte anchor with no
filter_task field and ATRACE_VERSION = 1, while main.c line 24 statically
asserts sizeof(struct atrace_anchor) == 84, main.c line 289 and stub_gen.c
lines 358-359 reference anchor->filter_task, and the daemon consults the
field only when version >= 2 - a gate the published version 1 fails. -/
theorem c5_anchor_layout_mismatch :
    anchor_sizeof = 80 ∧
    main_assert_anchor_size = 84 ∧
    anchor_sizeof ≠ main_assert_anchor_size ∧
    ATRACE_VERSION = 1 ∧
    daemon_filter_task_gate ATRACE_VERSION = false ∧
    ((atrace_anchor_fields.map Prod.fst).contains "filter_task") = false := by
  refine ⟨by decide, rfl, by decide, rfl, by decide, by decide⟩

/-- Concrete pre-call state used to refute claim C3: a ring slot whose
previous occupant completed with return value 7 and was consumed (valid
cleared, retval left in place, exactly as trace_poll_events line 1466 leaves
it). -/
def c3_event : AEvent :=
  { valid := 0, lib_id := 0, lvo_offset := -552, sequence := 3,
    caller_task := 4096, args := [0, 0, 0, 0], retval := 7, arg_count := 2,
    string_data := [] }

def c3_patch : PatchDesc :=
  { lib_id := 0, lvo_offset := -552, arg_count := 2,
    arg_regs := fun i => if i = 0 then 9 else 0, string_args := 1 }

/-- Claim C3 counterexample: after the pre-call fill of a reused slot the
entry reads valid = 1 with retval = 7, not 0, because the generated stub
writes sequence, lib_id, lvo_offset, caller_task, the arguments, arg_count
and the string capture but never touches the retval field before the
original call, and the consumer clears only the valid byte.  A consumer
observing this mid-flight entry reads the stale previous return value. -/
theorem c3_counterexample :
    (stub_fill c3_event c3_patch 5 4096 (fun _ => 0)
        (some "dos.library".data)).valid = 1 ∧
    (stub_fill c3_event c3_patch 5 4096 (fun _ => 0)
        (some "dos.library".data)).retval = 7 ∧
    (7 : Nat) ≠ 0 := by
  refine ⟨rfl, rfl, by decide⟩

/-- Claim C3 amended: a mid-flight entry (valid = 1, post-call handler not
yet run) carries whatever retval the slot previously held - zero only for a
slot that never held a completed event, since ringbuf_alloc clears the ring:
the pre-call fill leaves retval unchanged while setting valid = 1, the
post-call handler is the writer of retval, and a freshly allocated entry has
retval = 0. -/
theorem c3_retval_stale_midflight :
    (∀ (e : AEvent) (p : PatchDesc) (seq task : Nat) (frame : Int → Nat)
        (src : Option (List Char)),
        (stub_fill e p seq task frame src).retval = e.retval ∧
        (stub_fill e p seq task frame src).valid = 1) ∧
    (∀ (e : AEvent) (r : Nat),
        (stub_postcall e r).retval = r ∧ (stub_postcall e r).valid = 1) ∧
    zero_event.retval = 0 :=
  ⟨fun _ _ _ _ _ _ => ⟨rfl, rfl⟩, fun _ _ => ⟨rfl, rfl⟩, rfl⟩

/-- Concrete engine state used to refute claim C6: three produced,
unconsumed events (write_pos = 3, read_pos = 0), no in-flight stubs. -/
def c6_state : StubS :=
  { patch_count := 1, enabled := fun _ => 1, global_enable := 1,
    filter_task := 0, cap := 16, wp := 3, rp := 0, overflow := 0,
    valid := fun i => decide (i < 3), use_count := fun _ => 0,
    event_sequence := 3 }

/-- Claim C6 counterexample: the loader global DISABLE (do_disable, main.c
lines 494-517) polls the in-flight counters but never advances read_pos, so
after it completes on a state with three unconsumed events read_pos (0) still
differs from write_pos (3), contradicting the claimed postcondition
read_pos = write_pos. -/
theorem c6_counterexample :
    ¬ ((do_disable_global c6_state).1.rp = (do_disable_global c6_state).1.wp) := by
  decide

/-- Claim C6 amended: the loader global DISABLE clears global_enable and
polls every patch in-flight counter toward zero (1-second bound), leaving the
ring header - read_pos, write_pos, overflow - untouched; the daemon global
TRACE DISABLE clears global_enable, advances read_pos to write_pos and resets
the overflow counter to zero (accumulating it into the daemon dropped total),
without polling the in-flight counters, which it leaves unchanged. -/
theorem c6_disable_effects :
    ∀ (s : StubS) (dropped : Nat),
      (do_disable_global s).1 = { s with global_enable := 0 } ∧
      ((do_disable_global s).2 = true ↔ ∀ i < s.patch_count, s.use_count i = 0) ∧
      (trace_cmd_disable_global s dropped).1.rp = s.wp ∧
      (trace_cmd_disable_global s dropped).1.wp = s.wp ∧
      (trace_cmd_disable_global s dropped).1.overflow = 0 ∧
      (trace_cmd_disable_global s dropped).1.global_enable = 0 ∧
      (trace_cmd_disable_global s dropped).1.use_count = s.use_count ∧
      (trace_cmd_disable_global s dropped).2 = dropped + s.overflow := by
  intro s dropped
  refine ⟨rfl, ?_, ?_, ?_, ?_, ?_, ?_, ?_⟩
  · simp [do_disable_global, List.all_eq_true, List.mem_range]
  all_goals
    unfold trace_cmd_disable_global
    by_cases h : 0 < s.overflow <;> simp [h] <;> omega

/-- Claim C6 witness: the theorem applied at a concrete state. -/
theorem c6_witness :
    (do_disable_global c6_state).1 = { c6_state with global_enable := 0 } :=
  (c6_disable_effects c6_state 0).1

/-- Claim C2: ring-slot reservation under interrupt disable: the stub reads
write_pos, computes next = (write_pos + 1) mod capacity (the emitted
increment-and-compare-with-capacity computes exactly that whenever write_pos
is in range); on collision with read_pos it increments the overflow counter
and produces no event and changes nothing else; on success it stores next as
the new write_pos, increments the patch in-flight counter, and assigns the
event the prior value of the global sequence counter, which it increments -
so the sequence numbers of successive reservations, across all tasks and all
interleavings with the consumer, are strictly increasing. -/
theorem c2_slot_reservation :
    ∀ (s : StubS) (pidx : Nat) (steps : List AStep),
      (s.wp < s.cap → stub_next s = (s.wp + 1) % s.cap) ∧
      (stub_next s = s.rp →
        stub_reserve s pidx = (none, { s with overflow := s.overflow + 1 })) ∧
      (stub_next s ≠ s.rp →
        stub_reserve s pidx =
          (some (s.wp, s.event_sequence),
           { s with
              wp := stub_next s,
              use_count := fun i => if i = pidx then s.use_count i + 1
                                    else s.use_count i,
              event_sequence := s.event_sequence + 1,
              valid := fun i => if i = s.wp then true else s.valid i })) ∧
      List.Chain' (· < ·) (seqs_of steps s) := by
  intro s pidx steps
  refine ⟨?_, fun h => stub_reserve_collision h, fun h => stub_reserve_success h,
          seqs_of_chain steps s⟩
  intro h
  simp only [stub_next]
  split
  · exact (Nat.mod_eq_of_lt (by omega)).symm
  · have hc : s.wp + 1 = s.cap := by omega
    rw [hc, Nat.mod_self]

/-- Concrete state for the C2 witness: write_pos at the wrap point. -/
def c2_state : StubS := { init_stub 16 1 with wp := 15, rp := 3, event_sequence := 9 }

/-- Claim C2 witness: the theorem applied at a concrete in-range state. -/
theorem c2_witness :
    c2_state.wp < c2_state.cap ∧ stub_next c2_state = (c2_state.wp + 1) % c2_state.cap ∧
    (stub_next c2_state ≠ c2_state.rp →
      stub_reserve c2_state 0 =
        (some (c2_state.wp, c2_state.event_sequence),
         { c2_state with
            wp := stub_next c2_state,
            use_count := fun i => if i = 0 then c2_state.use_count i + 1
                                  else c2_state.use_count i,
            event_sequence := c2_state.event_sequence + 1,
            valid := fun i => if i = c2_state.wp then true else c2_state.valid i })) :=
  ⟨by decide, (c2_slot_reservation c2_state 0 []).1 (by decide),
   (c2_slot_reservation c2_state 0 []).2.2.1⟩

/-- Claim C4: if the per-patch enabled flag is zero, global_enable is zero,
or the target-task filter is set and differs from the current task (checked
in that order by first_failed_check, which mirrors the emitted check
sequence), the stub leaves every piece of shared state untouched and
tail-calls the original function, so the call returns exactly what the
untraced original returns with the same effects on the outside world, and no
entry is produced. -/
theorem c4_fastpath_transparent :
    ∀ {W : Type} (orig : W → W × Nat) (s : StubS) (pidx cur : Nat) (w : W),
      (s.enabled pidx = 0 ∨ s.global_enable = 0 ∨
          (s.filter_task ≠ 0 ∧ s.filter_task ≠ cur) →
        stub_run orig s pidx cur w = (s, orig w)) ∧
      (stub_check s pidx cur = true ↔
        (s.enabled pidx = 0 ∨ s.global_enable = 0 ∨
          (s.filter_task ≠ 0 ∧ s.filter_task ≠ cur))) ∧
      (first_failed_check s pidx cur = some 0 ↔ s.enabled pidx = 0) ∧
      (first_failed_check s pidx cur = some 1 ↔
        (s.enabled pidx ≠ 0 ∧ s.global_enable = 0)) ∧
      (first_failed_check s pidx cur = some 2 ↔
        (s.enabled pidx ≠ 0 ∧ s.global_enable ≠ 0 ∧
          s.filter_task ≠ 0 ∧ s.filter_task ≠ cur)) := by
  intro W orig s pidx cur w
  have hcheck : stub_check s pidx cur = true ↔
      (s.enabled pidx = 0 ∨ s.global_enable = 0 ∨
        (s.filter_task ≠ 0 ∧ s.filter_task ≠ cur)) := by
    unfold stub_check
    split_ifs with h1 h2 h3 h4
    · exact iff_of_true rfl (Or.inl h1)
    · exact iff_of_true rfl (Or.inr (Or.inl h2))
    · refine iff_of_false (by simp) ?_
      rintro (h | h | ⟨hf, _⟩)
      · exact h1 h
      · exact h2 h
      · exact hf h3
    · exact iff_of_true rfl (Or.inr (Or.inr ⟨h3, h4⟩))
    · refine iff_of_false (by simp) ?_
      rintro (h | h | ⟨_, hc⟩)
      · exact h1 h
      · exact h2 h
      · exact hc (not_not.mp h4)
  refine ⟨?_, hcheck, ?_, ?_, ?_⟩
  · intro h
    have : stub_check s pidx cur = true := hcheck.mpr h
    simp [stub_run, this]
  all_goals
    unfold first_failed_check
    split_ifs <;> simp_all <;> assumption

/-- Concrete state for the C4 witness: the patch is individually disabled. -/
def c4_state : StubS := { init_stub 16 1 with enabled := fun _ => 0 }

/-- Claim C4 witness: with the patch disabled, the stub returns exactly the
original call on the same world, state untouched. -/
theorem c4_witness :
    stub_run (fun (w : Nat) => (w + 5, 7)) c4_state 0 0 3 = (c4_state, 8, 7) :=
  (c4_fastpath_transparent (fun (w : Nat) => (w + 5, 7)) c4_state 0 0 3).1
    (Or.inl rfl)

/-- Claim C7: an event delivered to a TRACE RUN client - through the poll
broadcast or the final drain - has caller_task equal to the session
run_task_ptr and sequence at least run_start_seq; events of any other task
are never delivered to that client; and since run_start_seq is the value of
the global event counter snapshotted before the child can run, every
reservation performed afterwards (by any task) receives a sequence number at
least that snapshot. -/
theorem c7_run_targeting :
    ∀ (c : ClientTS) (ev : AEvent) (nm : List Char),
      (c.mode_run = true → poll_delivers c ev nm = true →
        ev.caller_task = c.run_task_ptr ∧ c.run_start_seq ≤ ev.sequence) ∧
      (drain_delivers c ev nm = true →
        ev.caller_task = c.run_task_ptr ∧ c.run_start_seq ≤ ev.sequence) ∧
      (c.mode_run = true → ev.caller_task ≠ c.run_task_ptr →
        poll_delivers c ev nm = false ∧ drain_delivers c ev nm = false) ∧
      (∀ (steps : List AStep) (s : StubS) (q : Nat),
        q ∈ seqs_of steps s → s.event_sequence ≤ q) := by
  intro c ev nm
  refine ⟨?_, ?_, ?_, fun steps s q h => seqs_of_ge steps s q h⟩
  · intro hmode hdel
    unfold poll_delivers at hdel
    split_ifs at hdel <;> simp_all
  · intro hdel
    unfold drain_delivers at hdel
    simp only [Bool.and_eq_true, beq_iff_eq, decide_eq_true_eq] at hdel
    exact ⟨hdel.1.1, hdel.1.2⟩
  · intro hmode hne
    unfold poll_delivers drain_delivers
    simp_all

/-- Concrete RUN-session client and matching event for the C7 witness. -/
def c7_client : ClientTS :=
  { active := true, mode_run := true, filter_lib_id := -1, filter_lvo := 0,
    filter_errors_only := false, filter_procname := [], run_task_ptr := 500,
    run_start_seq := 10 }

def c7_event : AEvent :=
  { valid := 1, lib_id := 0, lvo_offset := -552, sequence := 12,
    caller_task := 500, args := [0, 0, 0, 0], retval := 1, arg_count := 2,
    string_data := "dos.library".data }

/-- Claim C7 witness: the theorem applied at a concrete delivered event. -/
theorem c7_witness :
    c7_event.caller_task = c7_client.run_task_ptr ∧
    c7_client.run_start_seq ≤ c7_event.sequence :=
  (c7_run_targeting c7_client c7_event []).1 rfl (by decide)

/-- cap is preserved by every step. -/
theorem run_steps_cap (steps : List AStep) (s : StubS) :
    (run_steps steps s).cap = s.cap := by
  induction steps generalizing s with
  | nil => rfl
  | cons a t ih =>
    cases a with
    | reserve p =>
      have h : ((stub_reserve s p).2).cap = s.cap := by
        by_cases hcol : stub_next s = s.rp
        · rw [stub_reserve_collision hcol]
        · rw [stub_reserve_success hcol]
      simp only [run_steps, ih, h]
    | consume =>
      have h : (consume_step s).cap = s.cap := by
        unfold consume_step
        split <;> rfl
      simp only [run_steps, ih, h]

/-- Claim C10: starting from a freshly installed ring of any capacity c >= 1,
after any interleaving of producer reservations and consumer iterations the
number of reserved-but-unconsumed entries (slots with valid set) is at most
c - 1, and write_pos = read_pos holds exactly when the ring is empty; a
producer whose computed next position equals read_pos takes the overflow path
(incrementing only the overflow counter) instead of filling the last free
slot. -/
theorem c10_ring_occupancy :
    ∀ (cap n : Nat) (steps : List AStep), 1 ≤ cap →
      (count_valid (run_steps steps (init_stub cap n)) ≤ cap - 1 ∧
       ((run_steps steps (init_stub cap n)).wp = (run_steps steps (init_stub cap n)).rp ↔
         count_valid (run_steps steps (init_stub cap n)) = 0)) ∧
      (∀ (s : StubS) (p : Nat), s.wp < s.cap → (s.wp + 1) % s.cap = s.rp →
        (stub_reserve s p).1 = none ∧
        (stub_reserve s p).2 = { s with overflow := s.overflow + 1 }) := by
  intro cap n steps hcap
  constructor
  · have hinv := @ring_inv_run steps (init_stub cap n) (@ring_inv_init cap n hcap)
    obtain ⟨hw, hr, _hchar, hcount⟩ := hinv
    have hc : (run_steps steps (init_stub cap n)).cap = cap :=
      run_steps_cap steps (init_stub cap n)
    rw [hc] at hw hr hcount
    constructor
    · rw [hcount]
      have := dist_lt_cap hr hw
      omega
    · rw [hcount]
      have hz := dist_eq_zero_iff hr hw
      constructor
      · intro h; exact hz.mpr h.symm
      · intro h; exact (hz.mp h).symm
  · intro s p hwp hcol
    have hnext : stub_next s = s.rp := by
      simp only [stub_next]
      split
      · rw [← hcol]; exact (Nat.mod_eq_of_lt (by omega)).symm
      · have hc : s.wp + 1 = s.cap := by omega
        rw [← hcol, hc, Nat.mod_self]
    rw [stub_reserve_collision hnext]
    exact ⟨rfl, rfl⟩

/-- Claim C10 witness: the theorem applied at capacity 16 with a concrete
interleaving. -/
theorem c10_witness :
    count_valid (run_steps [AStep.reserve 0, AStep.reserve 0, AStep.consume]
      (init_stub 16 1)) ≤ 15 :=
  ((c10_ring_occupancy 16 1 [AStep.reserve 0, AStep.reserve 0, AStep.consume]
    (by decide)).1).1

/- ======================== Claim C8 machinery ============================= -/

theorem lib_pass_iff (ts : ClientTS) (ev : AEvent) :
    lib_pass ts ev = true ↔
      (ts.filter_lib_id < 0 ∨ (ev.lib_id : Int) = ts.filter_lib_id) := by
  simp [lib_pass]

theorem lvo_pass_iff (ts : ClientTS) (ev : AEvent) :
    lvo_pass ts ev = true ↔
      (ts.filter_lvo = 0 ∨ ev.lvo_offset = ts.filter_lvo) := by
  simp [lvo_pass]

theorem proc_pass_iff (ts : ClientTS) (nm : List Char) :
    proc_pass ts nm = true ↔
      (ts.filter_procname = [] ∨
        contains_ci (strip_cli nm) ts.filter_procname = true) := by
  simp [proc_pass]

/-- The default-constructed client state (all filters at their
match-everything values, no session). -/
def default_client : ClientTS :=
  { active := false, mode_run := false, filter_lib_id := -1, filter_lvo := 0,
    filter_errors_only := false, filter_procname := [], run_task_ptr := 0,
    run_start_seq := 0 }

/-- Claim C8: trace_filter_match is the conjunction of the four independent
filter predicates (LIB by library id, FUNC by LVO, PROC by case-insensitive
substring on the CLI-prefix-stripped task name, ERRORS by the per-function
error-check tag); unrecognised filter keywords are ignored; an unrecognised
LIB name parses to the sentinel library id 255, which matches no event whose
library id differs from 255 (all installed patches use ids 0 and 1); an
unrecognised FUNC name parses to the sentinel LVO 1, which matches no event
whose LVO differs from 1 (all real LVOs are negative); a recognised FUNC
name sets the LVO together with its library id. -/
theorem c8_filter_engine :
    (∀ (ts : ClientTS) (ev : AEvent) (nm : List Char),
      trace_filter_match ts ev nm =
        (lib_pass ts ev && lvo_pass ts ev && proc_pass ts nm && errors_pass ts ev)) ∧
    (parse_filters "LIB=xyzzy".data default_client).filter_lib_id = 255 ∧
    (∀ (ev : AEvent) (nm : List Char), (ev.lib_id : Int) ≠ 255 →
      trace_filter_match (parse_filters "LIB=xyzzy".data default_client) ev nm = false) ∧
    (parse_filters "FUNC=Nonesuch".data default_client).filter_lvo = 1 ∧
    (∀ (ev : AEvent) (nm : List Char), ev.lvo_offset ≠ 1 →
      trace_filter_match (parse_filters "FUNC=Nonesuch".data default_client) ev nm = false) ∧
    parse_filters "WOMBAT=9".data default_client = parse_filters [] default_client ∧
    (parse_filters "FUNC=OpenLibrary".data default_client).filter_lvo = -552 ∧
    (parse_filters "FUNC=OpenLibrary".data default_client).filter_lib_id = 0 := by
  refine ⟨?_, by decide, ?_, by decide, ?_, by decide, by decide, by decide⟩
  · intro ts ev nm
    rw [Bool.eq_iff_iff]
    simp only [Bool.and_eq_true]
    unfold trace_filter_match
    split_ifs with hA hB hC hD
    · refine iff_of_false (by simp) ?_
      rintro ⟨⟨⟨hl, _⟩, _⟩, _⟩
      rcases (lib_pass_iff ts ev).mp hl with h | h
      · omega
      · exact hA.2 h
    · refine iff_of_false (by simp) ?_
      rintro ⟨⟨⟨_, hv⟩, _⟩, _⟩
      rcases (lvo_pass_iff ts ev).mp hv with h | h
      · exact hB.1 h
      · exact hB.2 h
    · refine iff_of_false (by simp) ?_
      rintro ⟨⟨⟨_, _⟩, hp⟩, _⟩
      rcases (proc_pass_iff ts nm).mp hp with h | h
      · exact hC.1 h
      · rw [hC.2] at h
        exact Bool.false_ne_true h
    · have hl : lib_pass ts ev = true := by
        rw [lib_pass_iff]
        by_cases h : (ev.lib_id : Int) = ts.filter_lib_id
        · exact Or.inr h
        · left
          by_contra hneg
          push_neg at hneg
          exact hA ⟨by omega, h⟩
      have hv : lvo_pass ts ev = true := by
        rw [lvo_pass_iff]
        by_cases h : ev.lvo_offset = ts.filter_lvo
        · exact Or.inr h
        · left
          by_contra hneg
          exact hB ⟨hneg, h⟩
      have hp : proc_pass ts nm = true := by
        rw [proc_pass_iff]
        by_cases h : ts.filter_procname = []
        · exact Or.inl h
        · right
          rcases hcc : contains_ci (strip_cli nm) ts.filter_procname with _ | _
          · exact absurd ⟨h, hcc⟩ hC
          · rfl
      have he : errors_pass ts ev =
          (match lookup_func ev.lib_id ev.lvo_offset with
           | some fe => errors_show fe ev
           | none => true) := by
        simp [errors_pass, hD]
      simp [hl, hv, hp, he]
    · refine iff_of_true rfl ?_
      refine ⟨⟨⟨?_, ?_⟩, ?_⟩, ?_⟩
      · rw [lib_pass_iff]
        by_cases h : (ev.lib_id : Int) = ts.filter_lib_id
        · exact Or.inr h
        · left
          by_contra hneg
          push_neg at hneg
          exact hA ⟨by omega, h⟩
      · rw [lvo_pass_iff]
        by_cases h : ev.lvo_offset = ts.filter_lvo
        · exact Or.inr h
        · left
          by_contra hneg
          exact hB ⟨hneg, h⟩
      · rw [proc_pass_iff]
        by_cases h : ts.filter_procname = []
        · exact Or.inl h
        · right
          rcases hcc : contains_ci (strip_cli nm) ts.filter_procname with _ | _
          · exact absurd ⟨h, hcc⟩ hC
          · rfl
      · simp [errors_pass, hD]
  · intro ev nm h
    have hp : parse_filters "LIB=xyzzy".data default_client =
        { default_client with filter_lib_id := 255 } := by decide
    rw [hp]
    unfold trace_filter_match
    rw [if_pos]
    exact ⟨by decide, h⟩
  · intro ev nm h
    have hp : parse_filters "FUNC=Nonesuch".data default_client =
        { default_client with filter_lvo := 1 } := by decide
    rw [hp]
    unfold trace_filter_match
    rw [if_neg, if_pos]
    · exact ⟨by decide, h⟩
    · rintro ⟨h1, _⟩
      simp [default_client] at h1

/-- An event at dos.Lock used by the C8 witness. -/
def c8_event : AEvent :=
  { valid := 1, lib_id := 1, lvo_offset := -84, sequence := 1,
    caller_task := 77, args := [0, 0, 0, 0], retval := 5, arg_count := 2,
    string_data := "RAM:".data }

/-- Claim C8 witness: the theorem applied at a concrete event - the LIB
sentinel rejects it, and the filter decomposition holds for it. -/
theorem c8_witness :
    trace_filter_match (parse_filters "LIB=xyzzy".data default_client)
      c8_event [] = false ∧
    trace_filter_match default_client c8_event [] =
      (lib_pass default_client c8_event && lvo_pass default_client c8_event &&
       proc_pass default_client [] && errors_pass default_client c8_event) :=
  ⟨c8_filter_engine.2.2.1 c8_event [] (by decide),
   c8_filter_engine.1 default_client c8_event []⟩

/- ========================= Claim C9 ====================================== -/

theorem lookup_func_eq {lib : Nat} {lvo : Int} {fe : TraceFuncEntry}
    (h : lookup_func lib lvo = some fe) :
    fe.lib_id = lib ∧ fe.lvo_offset = lvo := by
  unfold lookup_func at h
  have := List.find?_some h
  simp only [Bool.and_eq_true, beq_iff_eq] at this
  exact this

/-- 33 successive additions of distinct locks 1..33 (paths "p") into a
cleared cache: one more than the 32 slots. -/
def c9_filled : LockCache :=
  (List.range 33).foldl (fun c i => lock_cache_add c (i + 1) ['p']) lock_cache_clear

/-- Claim C9: the formatter adds (retval, string path) to the lock-to-path
cache exactly for dos.Lock / dos.CreateDir events with a non-zero return and
a non-empty captured string; all other events (dos.Open included) leave the
cache unchanged; the cache keeps its 32 slots, with FIFO eviction (after 33
adds the first pair is gone, the 33rd present); both session starts (TRACE
START and the TRACE RUN path) clear the cache; and a CurrentDir argument
that hits the cache is rendered as the quoted path. -/
theorem c9_lock_cache :
    (∀ (cache : LockCache) (ev : AEvent),
      ev.lib_id = LIB_DOS → (ev.lvo_offset = -84 ∨ ev.lvo_offset = -120) →
      ev.retval ≠ 0 → ev.string_data ≠ [] →
      format_event_cache_update cache ev =
        lock_cache_add cache ev.retval ev.string_data) ∧
    (∀ (cache : LockCache) (ev : AEvent),
      ev.retval = 0 ∨ ev.string_data = [] ∨
        ¬(ev.lib_id = LIB_DOS ∧ (ev.lvo_offset = -84 ∨ ev.lvo_offset = -120)) →
      format_event_cache_update cache ev = cache) ∧
    (∀ (cache : LockCache) (l : Nat) (p : List Char),
      (lock_cache_add cache l p).slots.length = cache.slots.length) ∧
    lock_cache_clear.slots.length = LOCK_CACHE_SIZE ∧
    (lock_cache_lookup c9_filled 1 = none ∧
     lock_cache_lookup c9_filled 33 = some ['p']) ∧
    (∀ (tail_active loaded : Bool) (ge : Nat) (args : List Char)
        (c : ClientTS) (cache : LockCache),
      tail_active = false → c.active = false → loaded = true → ge ≠ 0 →
      (trace_cmd_start_model tail_active loaded ge args c cache).2 =
        lock_cache_clear) ∧
    (∀ (cache : LockCache),
      trace_cmd_run_cache_model false false true 1 true true true false true cache =
        (true, lock_cache_clear)) ∧
    (∀ (cache : LockCache) (l : Nat) (p : List Char),
      lock_cache_lookup cache l = some p →
      format_args_currentdir cache l = quote_str p) := by
  refine ⟨?_, ?_, ?_, by decide, by decide, ?_, fun _ => rfl, ?_⟩
  · intro cache ev h1 h2 h3 h4
    unfold format_event_cache_update
    rcases h2 with h2 | h2 <;> simp only [h1, h2]
    · rw [show lookup_func LIB_DOS (-84) =
          some ⟨"dos", "Lock", LIB_DOS, -84, ERR_CHECK_NULL, true, RET_LOCK⟩
        from by decide]
      dsimp only
      rw [if_pos ⟨h3, rfl, h4⟩, if_pos (Or.inl ⟨rfl, rfl⟩)]
    · rw [show lookup_func LIB_DOS (-120) =
          some ⟨"dos", "CreateDir", LIB_DOS, -120, ERR_CHECK_NULL, true, RET_LOCK⟩
        from by decide]
      dsimp only
      rw [if_pos ⟨h3, rfl, h4⟩, if_pos (Or.inr ⟨rfl, rfl⟩)]
  · intro cache ev h
    unfold format_event_cache_update
    cases hlk : lookup_func ev.lib_id ev.lvo_offset with
    | none => rfl
    | some fe =>
      obtain ⟨hfl, hfv⟩ := lookup_func_eq hlk
      dsimp only
      rcases h with h | h | h
      · rw [if_neg]
        rintro ⟨hr, _⟩
        exact hr h
      · rw [if_neg]
        rintro ⟨_, _, hsd⟩
        exact hsd h
      · by_cases houter : (ev.retval ≠ 0 ∧ fe.has_string ∧ ev.string_data ≠ [])
        · rw [if_pos houter, if_neg]
          rintro (⟨ha, hb⟩ | ⟨ha, hb⟩)
          · refine h ⟨by rw [← hfl]; exact ha, Or.inl (by rw [← hfv]; exact hb)⟩
          · refine h ⟨by rw [← hfl]; exact ha, Or.inr (by rw [← hfv]; exact hb)⟩
        · rw [if_neg houter]
  · intro cache l p
    unfold lock_cache_add
    split
    · rfl
    · simp
  · intro tail_active loaded ge args c cache h1 h2 h3 h4
    simp [trace_cmd_start_model, h1, h2, h3, h4]
  · intro cache l p hlk
    have hl0 : l ≠ 0 := by
      intro h0
      rw [h0] at hlk
      simp [lock_cache_lookup] at hlk
    unfold format_args_currentdir
    rw [if_neg hl0, hlk]

/-- A successful dos.Lock event for the C9 witness. -/
def c9_event : AEvent :=
  { valid := 1, lib_id := 1, lvo_offset := -84, sequence := 2,
    caller_task := 9, args := [0, 0, 0, 0], retval := 77, arg_count := 2,
    string_data := "RAM:".data }

/-- Claim C9 witness: the theorem applied at a concrete Lock event and a
concrete CurrentDir lookup. -/
theorem c9_witness :
    format_event_cache_update lock_cache_clear c9_event =
      lock_cache_add lock_cache_clear 77 "RAM:".data ∧
    format_args_currentdir (lock_cache_add lock_cache_clear 77 "RAM:".data) 77 =
      quote_str "RAM:".data :=
  ⟨c9_lock_cache.1 lock_cache_clear c9_event rfl (Or.inl rfl) (by decide) (by decide),
   c9_lock_cache.2.2.2.2.2.2.2 (lock_cache_add lock_cache_clear 77 "RAM:".data)
     77 "RAM:".data (by decide)⟩

/- ========================= Claim C1 ====================================== -/

theorem sum_map_const_three (m : Nat) :
    ((List.range m).map (fun _ => (3 : Nat))).sum = 3 * m := by
  induction m with
  | zero => rfl
  | succ n ih =>
    rw [List.range_succ, List.map_append, List.sum_append]
    simp [ih]
    omega

theorem var_buf_length (p : PatchDesc) :
    (var_buf_words p).length =
      3 * min p.arg_count 4 + 3 + (if p.string_args ≠ 0 then 11 else 0) + 2 := by
  unfold var_buf_words var_instr_groups str_capture_words
  by_cases hs : p.string_args ≠ 0 <;>
    simp [hs, List.length_flatten, Function.comp_def, sum_map_const_three] <;>
    omega

theorem drop_last_two (l : List Nat) (x y : Nat) :
    (l ++ [x, y]).drop ((l ++ [x, y]).length - 2) = [x, y] := by
  have h : (l ++ [x, y]).length - 2 = l.length := by
    simp [List.length_append]
  rw [h]
  exact List.drop_left l [x, y]

theorem var_buf_split (p : PatchDesc) :
    var_buf_words p =
      (((List.range (min p.arg_count 4)).map (fun i =>
          [0x2B6F, w16 (reg_to_frame_offset (p.arg_regs i)), EV_OFS_ARGS + i * 4])).flatten
        ++ ([0x1B7C, min p.arg_count 4, EV_OFS_ARG_COUNT]
            ++ (if p.string_args ≠ 0 then [str_capture_words p] else []).flatten))
      ++ [0x1ABC, 0x0001] := by
  unfold var_buf_words var_instr_groups
  simp [List.flatten_append, List.append_assoc]

/-- Claim C1: in every generated stub, the valid = 1 store of the variable
region is emitted strictly after the prefix writes of sequence, lib_id,
lvo_offset and caller_task, after every argument-value copy, after the
arg_count store and after the string capture (when emitted), and strictly
before the trampoline that tail-calls the original function; the last two
words of the variable region are exactly the valid store; no variable-region
or prefix instruction writes the retval field (entry offset 28) - the only
retval write is the post-call handler instruction at suffix byte 30
(move.l d0, 28(a0)), which is followed inside the handler by the valid
re-write at byte 34 and the use-count decrement at byte 44; and the
assembled stub is exactly prefix, variable region, suffix. -/
theorem c1_valid_store_emission :
    ∀ (p : PatchDesc),
      (seq_write_ofs < valid_store_ofs p ∧ lib_id_write_ofs < valid_store_ofs p ∧
       lvo_write_ofs < valid_store_ofs p ∧ caller_task_write_ofs < valid_store_ofs p) ∧
      (∀ i < min p.arg_count 4, arg_write_ofs i < valid_store_ofs p) ∧
      arg_count_write_ofs p < valid_store_ofs p ∧
      (p.string_args ≠ 0 → str_capture_ofs p < valid_store_ofs p) ∧
      valid_store_ofs p < tailcall_ofs p ∧
      (var_buf_words p).drop ((var_buf_words p).length - 2) = [0x1ABC, 0x0001] ∧
      (∀ g ∈ var_instr_groups p, EV_OFS_RETVAL ∉ entry_dests g) ∧
      (assembled_stub p).take 84 = stub_prefix_words ∧
      (assembled_stub p).drop (84 + (var_buf_words p).length) = stub_suffix_words ∧
      (stub_suffix_words[retval_write_suffix_ofs / 2]? = some 0x2140 ∧
       stub_suffix_words[retval_write_suffix_ofs / 2 + 1]? = some 0x001C ∧
       stub_suffix_words[postcall_valid_ofs / 2]? = some 0x10BC ∧
       stub_suffix_words[postcall_usecount_ofs / 2]? = some 0x53A8) ∧
      (postcall_ofs ≤ retval_write_suffix_ofs ∧
       retval_write_suffix_ofs < postcall_valid_ofs ∧
       postcall_valid_ofs < postcall_usecount_ofs ∧
       postcall_usecount_ofs < disabled_path_ofs) := by
  intro p
  have hlen := var_buf_length p
  refine ⟨?_, ?_, ?_, ?_, ?_, ?_, ?_, ?_, ?_, by decide, by decide⟩
  · unfold valid_store_ofs suffix_start
    unfold seq_write_ofs lib_id_write_ofs lvo_write_ofs caller_task_write_ofs
    unfold STUB_PREFIX_BYTES
    by_cases hs : p.string_args ≠ 0
    · rw [if_pos hs] at hlen; omega
    · rw [if_neg hs] at hlen; omega
  · intro i hi
    unfold valid_store_ofs suffix_start arg_write_ofs
    unfold STUB_PREFIX_BYTES
    by_cases hs : p.string_args ≠ 0
    · rw [if_pos hs] at hlen; omega
    · rw [if_neg hs] at hlen; omega
  · unfold valid_store_ofs suffix_start arg_count_write_ofs
    unfold STUB_PREFIX_BYTES
    by_cases hs : p.string_args ≠ 0
    · rw [if_pos hs] at hlen; omega
    · rw [if_neg hs] at hlen; omega
  · intro hs
    unfold valid_store_ofs suffix_start str_capture_ofs
    unfold STUB_PREFIX_BYTES
    rw [if_pos hs] at hlen
    omega
  · unfold valid_store_ofs tailcall_ofs suffix_start
    unfold STUB_PREFIX_BYTES
    by_cases hs : p.string_args ≠ 0
    · rw [if_pos hs] at hlen; omega
    · rw [if_neg hs] at hlen; omega
  · rw [var_buf_split p]
    exact drop_last_two _ _ _
  · intro g hg
    unfold var_instr_groups at hg
    rcases List.mem_append.mp hg with hg2 | hgy
    · rcases List.mem_append.mp hg2 with hg3 | hgs
      · rcases List.mem_append.mp hg3 with hga | hgx
        · obtain ⟨i, hi, rfl⟩ := List.mem_map.mp hga
          have hi4 : i < 4 :=
            lt_of_lt_of_le (List.mem_range.mp hi) (Nat.min_le_right _ _)
          simp [entry_dests, EV_OFS_RETVAL, EV_OFS_ARGS]
          omega
        · have hgq : g = [0x1B7C, min p.arg_count 4, EV_OFS_ARG_COUNT] := by
            simpa using hgx
          subst hgq
          simp [entry_dests, EV_OFS_RETVAL, EV_OFS_ARG_COUNT]
      · by_cases hs : p.string_args ≠ 0
        · rw [if_pos hs] at hgs
          have hgq : g = str_capture_words p := by simpa using hgs
          subst hgq
          simp [entry_dests, str_capture_words, EV_OFS_RETVAL, EV_OFS_STRING]
        · rw [if_neg hs] at hgs
          simp at hgs
    · have hgq : g = [0x1ABC, 0x0001] := by simpa using hgy
      subst hgq
      simp [entry_dests, EV_OFS_RETVAL, EV_OFS_VALID]
  · have h84 : stub_prefix_words.length = 84 := by decide
    unfold assembled_stub
    rw [← h84, List.append_assoc]
    exact List.take_left stub_prefix_words _
  · have h84 : stub_prefix_words.length = 84 := by decide
    unfold assembled_stub
    have hl : (stub_prefix_words ++ var_buf_words p).length =
        84 + (var_buf_words p).length := by
      rw [List.length_append, h84]
    rw [← hl]
    exact List.drop_left _ _

/-- Concrete patch (two arguments, one string argument, as for
exec.OpenLibrary) used by the C1 witness. -/
def c1_patch : PatchDesc :=
  { lib_id := 0, lvo_offset := -552, arg_count := 2,
    arg_regs := fun i => if i = 0 then 9 else 0, string_args := 1 }

/-- Claim C1 witness: the theorem applied at a concrete patch descriptor. -/
theorem c1_witness :
    arg_write_ofs 1 < valid_store_ofs c1_patch ∧
    str_capture_ofs c1_patch < valid_store_ofs c1_patch :=
  ⟨(c1_valid_store_emission c1_patch).2.1 1 (by decide),
   (c1_valid_store_emission c1_patch).2.2.2.1 (by decide)⟩

end Amigactl
